import Mathlib

/-!
Shallow embedding of the spPaint3d tool core (src/scripts/sppaint3d/gui.py)
and proofs about its specification.

Modelling conventions:
- Python numeric values (bool / int / float) are modelled by the type
  PyVal below; floats are modelled as exact rationals.
- The Maya optionVar store is a map from names to optional values.
- The attribute dictionary of a Python object (self.__dict__) is a total
  map from attribute names to values.
- Randomness (random.randint, random.uniform) is modelled by passing the
  raw draw explicitly as an extra argument.
-/

namespace SpPaint3d

/-- A Python runtime value: either a bool or a number (int and float are
collapsed into exact rationals, as the code only does arithmetic and
comparisons on them). -/
inductive PyVal where
  | pbool : Bool → PyVal
  | pnum : ℚ → PyVal
deriving DecidableEq, Repr

/-- Numeric value of a Python value, as used by float conversion and by
numeric comparison (True compares equal to 1, False to 0). -/
def PyVal.toNum : PyVal → ℚ
  | .pbool b => if b then 1 else 0
  | .pnum q => q

/-- Python int() on a rational: truncation toward zero. -/
def pyTrunc (q : ℚ) : ℤ :=
  if 0 ≤ q then ⌊q⌋ else ⌈q⌉

/-- Python int() on a value. -/
def PyVal.toInt : PyVal → ℤ
  | .pbool b => if b then 1 else 0
  | .pnum q => pyTrunc q

/-- Python bool() on a value (truthiness of numbers: nonzero). -/
def PyVal.truthy : PyVal → Bool
  | .pbool b => b
  | .pnum q => decide (q ≠ 0)

/-- Round a rational to the nearest integer, ties to even
(the tie-breaking rule of Python round()). -/
def rndHalfEven (q : ℚ) : ℤ :=
  if q - ⌊q⌋ < 1/2 then ⌊q⌋
  else if 1/2 < q - ⌊q⌋ then ⌊q⌋ + 1
  else if ⌊q⌋ % 2 = 0 then ⌊q⌋ else ⌊q⌋ + 1

/-- Python round(q, nd): round to nd decimal places, ties to even. -/
def pyRound (q : ℚ) (nd : ℕ) : ℚ :=
  (rndHalfEven (q * 10 ^ nd) : ℚ) / 10 ^ nd

/-- round(q, 2), as used by sp3dToolOption.loadVars. -/
def round2 (q : ℚ) : ℚ := pyRound q 2

/-- round(q, 3), as used by sp3dTransform sampling. -/
def round3 (q : ℚ) : ℚ := pyRound q 3

/-- Python round(v, 2) on a value: round(True, 2) = 1, round(False, 2) = 0
(rounding a bool yields an int in Python). -/
def PyVal.round2 : PyVal → PyVal
  | .pbool b => .pnum (if b then 1 else 0)
  | .pnum q => .pnum (SpPaint3d.round2 q)

/-! ## The option table (global sp3dOptionVars) and sp3dToolOption -/

/-- Type tag of an optionVar entry: iv = boolean stored as int,
fv = float. -/
inductive VarType where
  | iv
  | fv
deriving DecidableEq, Repr

/-- spPaint3dVersion = 2022.0 in gui.py. -/
def spPaint3dVersion : ℚ := 2022

/-- One row of the sp3dOptionVars table:
optionVar name, type tag, default value, class attribute name. -/
structure OptVar where
  name : String
  ty : VarType
  default : ℚ
  varname : String
deriving DecidableEq, Repr

/-- The global sp3dOptionVars table of gui.py (a dict iterated in
insertion order), as a list of rows. -/
def sp3dOptionVars : List OptVar := [
  ⟨"sp3dTransformRotate", .iv, 1, "transformRotate"⟩,
  ⟨"sp3dTransformScale", .iv, 1, "transformScale"⟩,
  ⟨"sp3dTransformScaleUniform", .iv, 1, "transformScaleUniform"⟩,
  ⟨"sp3dInstance", .iv, 0, "instance"⟩,
  ⟨"sp3dRandom", .iv, 1, "random"⟩,
  ⟨"sp3dAlign", .iv, 1, "align"⟩,
  ⟨"sp3dPaintFlux", .iv, 1, "paintFlux"⟩,
  ⟨"sp3dRampFX", .fv, 0, "rampFX"⟩,
  ⟨"sp3dRealTimeRampFX", .iv, 0, "realTimeRampFX"⟩,
  ⟨"sp3dPaintTimer", .fv, 1/20, "paintTimer"⟩,
  ⟨"sp3dPaintDistance", .fv, 10, "paintDistance"⟩,
  ⟨"sp3dPaintOffset", .fv, 0, "upOffset"⟩,
  ⟨"sp3dPlaceRotate", .fv, 45, "placeRotate"⟩,
  ⟨"sp3dContinuousTransform", .iv, 0, "continuousTransform"⟩,
  ⟨"sp3dJitter", .iv, 0, "jitter"⟩,
  ⟨"sp3dPreserveInConn", .iv, 0, "preserveConn"⟩,
  ⟨"sp3dSmoothNormal", .iv, 1, "smoothNormal"⟩,
  ⟨"sp3dSetupHierarchy", .iv, 0, "hierarchy"⟩,
  ⟨"sp3dGroup", .fv, 0, "group"⟩,
  ⟨"sp3dVersion", .fv, spPaint3dVersion, "version"⟩]

/-- The Maya optionVar store: name to stored value, none when the
optionVar does not exist. -/
def Store : Type := String → Option PyVal

/-- cmds.optionVar(q=name): query a stored value (Maya yields 0 for a
missing optionVar; spPaint3d only queries after an existence check). -/
def optQ (st : Store) (name : String) : PyVal :=
  (st name).getD (.pnum 0)

/-- Write one optionVar. -/
def setStore (st : Store) (name : String) (v : PyVal) : Store :=
  fun m => if m = name then some v else st m

/-- The attribute dictionary of a sp3dToolOption instance
(self.__dict__), accessed by attribute name. -/
def Dict : Type := String → PyVal

/-- Write one attribute of the instance dictionary. -/
def setDict (d : Dict) (varname : String) (v : PyVal) : Dict :=
  fun m => if m = varname then v else d m

/-- sp3dToolOption.checkVars: False as soon as some optionVar from the
table is missing, or the stored sp3dVersion differs from the running
version (the default of its row); True otherwise. -/
def checkVars (st : Store) : Bool :=
  sp3dOptionVars.all fun e =>
    match st e.name with
    | none => false
    | some v => if e.name = "sp3dVersion" then decide (v.toNum = e.default) else true

/-- One loadVars step: iv attributes become bool(stored value), fv
attributes become round(stored value, 2). -/
def loadStep (st : Store) (d : Dict) (e : OptVar) : Dict :=
  match e.ty with
  | .iv => setDict d e.varname (.pbool (optQ st e.name).truthy)
  | .fv => setDict d e.varname (optQ st e.name).round2

/-- sp3dToolOption.loadVars: fold the table over the instance
dictionary, loading every listed attribute from the store. -/
def loadVars (st : Store) (d : Dict) : Dict :=
  sp3dOptionVars.foldl (loadStep st) d

/-- One resetVars store write: the default of the row, stored as a
number (as int for iv rows, as float for fv rows). -/
def resetStep (st : Store) (e : OptVar) : Store :=
  setStore st e.name (.pnum e.default)

/-- The store after the writing loop of sp3dToolOption.resetVars: every
optionVar of the table holds its default. -/
def resetStore (st : Store) : Store :=
  sp3dOptionVars.foldl resetStep st

/-- sp3dToolOption.resetVars: write all defaults to the store, then
loadVars into the instance dictionary. -/
def resetVars (st : Store) (d : Dict) : Store × Dict :=
  (resetStore st, loadVars (resetStore st) d)

/-- One commitVars step: iv attributes are stored as int(v), fv
attributes as their numeric value. -/
def commitStep (d : Dict) (st : Store) (e : OptVar) : Store :=
  match e.ty with
  | .iv => setStore st e.name (.pnum ((d e.varname).toInt : ℚ))
  | .fv => setStore st e.name (.pnum (d e.varname).toNum)

/-- sp3dToolOption.commitVars: write every listed attribute back to the
store. -/
def commitVars (d : Dict) (st : Store) : Store :=
  sp3dOptionVars.foldl (commitStep d) st

/-- commitVars followed by loadVars, the round trip of claim C10. -/
def commitLoad (st : Store) (d : Dict) : Dict :=
  loadVars (commitVars d st) d

/-! ## The scene collaborator used by getDAGPath and sp3dObjectList.addObj -/

/-- The slice of the Maya scene queried by getDAGPath and addObj.
Maya listRelatives returns None when there is no match; the empty list
models that (Maya never returns an empty list here). -/
structure Scene where
  /-- cmds.objectType(node) and cmds.nodeType(node): the node type. -/
  nodeType : String → String
  /-- cmds.listRelatives(node, children=True, shapes=True): the shape
  children. -/
  childShapes : String → List String
  /-- cmds.listRelatives(node, parent=True): the parent, if any. -/
  parentOf : String → List String
  /-- cmds.listRelatives(node, fullPath=True, shapes=True): full DAG
  paths of the shape children. -/
  fullShapePaths : String → List String
  /-- cmds.listRelatives(node, path=True, shapes=True): shortest unique
  paths of the shape children. -/
  shapePaths : String → List String

/-- getDAGPath(node, depth) of gui.py: if node is not a transform, step
up to its unique parent; then, when the (new) node is a transform with
exactly one shape child, return that shape path (full path when depth
is set), and None in every other case. -/
def getDAGPath (sc : Scene) (node0 : String) (depth : Bool) : Option String :=
  let node :=
    if sc.nodeType node0 ≠ "transform" then
      match sc.parentOf node0 with
      | [p] => p
      | _ => node0
    else node0
  if sc.nodeType node = "transform" then
    if (sc.childShapes node).length = 1 then
      (if depth then sc.fullShapePaths node else sc.shapePaths node).head?
    else none
  else none

/-! ## sp3dObjectList -/

/-- One entry of the sp3dObjectList dictionary: the value tuple
(dagPath, activation, proba, align) stored under a key. The dagPath is
an Option because getDAGPath may return None. -/
structure Entry where
  dag : Option String
  activation : Bool
  proba : ℚ
  align : String
deriving DecidableEq, Repr

/-- The sp3dObjectList object: an insertion-ordered dictionary of
entries (self.obj), the round-robin index (self.i) and the authorized
type list (self.auth). The errorHandle attribute is pure UI logging and
is not modelled. -/
structure sp3dObjectList where
  obj : List (String × Entry)
  i : ℕ
  auth : List String
deriving DecidableEq, Repr

/-- self.obj.keys() in insertion order. -/
def dictKeys (l : List (String × Entry)) : List String := l.map Prod.fst

/-- self.obj[k] as an optional lookup (keys are unique, so the first
binding with the key is the binding). -/
def dictGet : List (String × Entry) → String → Option Entry
  | [], _ => none
  | p :: rest, k => if p.1 == k then some p.2 else dictGet rest k

/-- Python dict assignment self.obj[k] = v: replace in place when the
key exists, append otherwise. -/
def dictSet (l : List (String × Entry)) (k : String) (v : Entry) : List (String × Entry) :=
  if l.any (fun p => p.1 == k) then l.map (fun p => if p.1 == k then (k, v) else p)
  else l ++ [(k, v)]

/-- sp3dObjectList.alreadyExists: key membership in self.obj. -/
def alreadyExists (r : sp3dObjectList) (k : String) : Bool :=
  (dictKeys r.obj).contains k

/-- sp3dObjectList.hasDuplicate: some key of the other list is already
a key of self. -/
def hasDuplicate (r other : sp3dObjectList) : Bool :=
  (dictKeys other.obj).any fun k => alreadyExists r k

/-- sp3dObjectList.validateObjects checks entries in dictionary order
and returns False at the first entry whose stored reference does not
resolve in the scene; the liveness test cmds.objExists(data[0]) is the
opaque collaborator ex. -/
def validateList (ex : Option String → Bool) : List (String × Entry) → Bool
  | [] => true
  | p :: rest => if ex p.2.dag then validateList ex rest else false

/-- sp3dObjectList.validateObjects: False when the dictionary is empty,
otherwise scan the entries, short-circuiting at the first dead
reference. -/
def validateObjects (ex : Option String → Bool) (r : sp3dObjectList) : Bool :=
  if r.obj.length = 0 then false
  else validateList ex r.obj

/-- Rejection reasons returned by addObj (the exact message strings of
gui.py, as an enumeration):
alreadyInList = the object-already-exists message,
noProperChild = the no-direct-child-of-the-proper-type message,
hierarchyTooComplex = the does-not-compute, hierarchy-too-complex message,
noValidCategory = the does-not-fit-any-valid-category message. -/
inductive Reason where
  | alreadyInList
  | noProperChild
  | hierarchyTooComplex
  | noValidCategory
deriving DecidableEq, Repr

/-- Result of addObj: (key, True) on success, (None, reason) on
rejection. -/
inductive AddResult where
  | added : String → AddResult
  | rejected : Reason → AddResult
deriving DecidableEq, Repr

/-- sp3dObjectList.addObj: reject a duplicate key; accept a shape of an
authorized type directly; for a transform, accept its single shape
child when that child is of an authorized type and not yet a key;
reject everything else. Returns the result and the updated list. -/
def addObj (sc : Scene) (r : sp3dObjectList) (obj : String)
    (activation : Bool) (proba : ℚ) (align : String) : AddResult × sp3dObjectList :=
  if alreadyExists r obj then
    (.rejected .alreadyInList, r)
  else
    let objtype := sc.nodeType obj
    let objchild := sc.childShapes obj
    if r.auth.contains objtype then
      (.added obj,
        { r with obj := dictSet r.obj obj ⟨getDAGPath sc obj true, activation, proba, align⟩ })
    else if objtype = "transform" then
      match objchild with
      | [] => (.rejected .noProperChild, r)
      | [c] =>
        if r.auth.contains (sc.nodeType c) then
          if alreadyExists r c then
            (.rejected .alreadyInList, r)
          else
            (.added c,
              { r with obj := dictSet r.obj c ⟨getDAGPath sc c true, activation, proba, align⟩ })
        else
          (.rejected .hierarchyTooComplex, r)
      | _ :: _ :: _ => (.rejected .hierarchyTooComplex, r)
    else
      (.rejected .noValidCategory, r)

/-- sp3dObjectList.delObj: delete the key from the dictionary (the
index self.i is untouched). -/
def delObj (r : sp3dObjectList) (k : String) : sp3dObjectList :=
  { r with obj := r.obj.filter fun p => !(p.1 == k) }

/-- sp3dObjectList.clrObj: empty the dictionary and reset the index. -/
def clrObj (r : sp3dObjectList) : sp3dObjectList :=
  { r with obj := [], i := 0 }

/-- sp3dObjectList.getRandom: rnd models the draw of
rand.randint(0, len - 1); the weighted parameter and the activation
flags are ignored by the code (its TODO), and the stored dag of the
entry at the drawn position of the key list is returned. None models
the exception on an empty dictionary. -/
def getRandom (r : sp3dObjectList) (weighted : Bool) (rnd : ℕ) : Option (Option String) :=
  let dkeys := dictKeys r.obj
  if dkeys.length = 0 then none
  else (dictGet r.obj (dkeys.getD (rnd % dkeys.length) "")).map Entry.dag

/-- The ascending sort of the key list performed by getNext
(dkeys.sort() in Python, stable ascending; keys are unique so any
sorted rearrangement is that sort). -/
def sortedKeys (r : sp3dObjectList) : List String :=
  (dictKeys r.obj).insertionSort (· ≤ ·)

/-- sp3dObjectList.getNext: return the stored dag of the key at
position i mod size of the ascending-sorted key list, and increment i.
None models the exception on an empty dictionary. -/
def getNext (r : sp3dObjectList) : Option (Option String × sp3dObjectList) :=
  let dkeys := sortedKeys r
  if dkeys.length = 0 then none
  else (dictGet r.obj (dkeys.getD (r.i % dkeys.length) "")).map
    fun e => (e.dag, { r with i := r.i + 1 })

/-- Run count successive getNext calls, collecting the returned
references (a failing call leaves the state unchanged and contributes
nothing; with a non-empty dictionary no call fails). -/
def runNext (r : sp3dObjectList) : ℕ → List (Option String) × sp3dObjectList
  | 0 => ([], r)
  | n + 1 =>
    let (l, r1) := runNext r n
    match getNext r1 with
    | some (s, r2) => (l ++ [s], r2)
    | none => (l, r1)

/-- Set the activation flag of the entry stored under key k (what the
activation checkbox of the UI edits). -/
def setActivation (r : sp3dObjectList) (k : String) (b : Bool) : sp3dObjectList :=
  { r with obj := r.obj.map fun p => if p.1 == k then (p.1, { p.2 with activation := b }) else p }

/-! ## sp3dTransform -/

/-- The sp3dTransform object: per-axis (min, max) ranges for rotation
and scale, and (min, max) ranges for U and V jitter. -/
structure sp3dTransform where
  rotate : (ℚ × ℚ) × (ℚ × ℚ) × (ℚ × ℚ)
  scale : (ℚ × ℚ) × (ℚ × ℚ) × (ℚ × ℚ)
  uJitter : ℚ × ℚ
  vJitter : ℚ × ℚ
deriving DecidableEq, Repr

/-- random.uniform(lo, hi) = lo + (hi - lo) * random(), with the draw
t of random() in [0, 1] passed explicitly. -/
def randUniform (lo hi t : ℚ) : ℚ := lo + (hi - lo) * t

/-- sp3dTransform.getRandomRotate: three independent draws, one per
axis, each rounded to 3 decimals. -/
def getRandomRotate (tr : sp3dTransform) (t1 t2 t3 : ℚ) : ℚ × ℚ × ℚ :=
  (round3 (randUniform tr.rotate.1.1 tr.rotate.1.2 t1),
   round3 (randUniform tr.rotate.2.1.1 tr.rotate.2.1.2 t2),
   round3 (randUniform tr.rotate.2.2.1 tr.rotate.2.2.2 t3))

/-- sp3dTransform.getRandomScale: with uniform set, one draw (from the
x range) replicated to the three axes; otherwise three independent
draws, one per axis range. -/
def getRandomScale (tr : sp3dTransform) (uniform : Bool) (t1 t2 t3 : ℚ) : ℚ × ℚ × ℚ :=
  if uniform then
    let r := round3 (randUniform tr.scale.1.1 tr.scale.1.2 t1)
    (r, r, r)
  else
    (round3 (randUniform tr.scale.1.1 tr.scale.1.2 t1),
     round3 (randUniform tr.scale.2.1.1 tr.scale.2.1.2 t2),
     round3 (randUniform tr.scale.2.2.1 tr.scale.2.2.2 t3))

/-! ## Concrete instances used in counterexamples and bug exhibits -/

/-- A source list holding two enabled entries whose probability weights
are 0.1 and 0.9 (the weighted-pick scenario of the spec). -/
def regWeights : sp3dObjectList :=
  ⟨[("A", ⟨some "dagA", true, 1/10, "Up"⟩), ("B", ⟨some "dagB", true, 9/10, "Up"⟩)], 0, ["mesh"]⟩

/-- A scene with a transform grp whose two immediate child shapes are a
mesh and a camera, so that exactly one child is of the authorized type
mesh. -/
def sceneTwoShapes : Scene where
  nodeType n :=
    if n = "grp" then "transform"
    else if n = "meshShape" then "mesh"
    else if n = "camShape" then "camera"
    else "unknown"
  childShapes n := if n = "grp" then ["meshShape", "camShape"] else []
  parentOf n := if n = "meshShape" then ["grp"] else if n = "camShape" then ["grp"] else []
  fullShapePaths n := if n = "grp" then ["|grp|meshShape", "|grp|camShape"] else []
  shapePaths n := if n = "grp" then ["meshShape", "camShape"] else []

/-- An empty target-role list (authorized types: mesh). -/
def regTarget : sp3dObjectList := ⟨[], 0, ["mesh"]⟩

/-- The stored reference under key k (the dag component the accessors
return); none doubles as the Python None reference. -/
def dagOf (r : sp3dObjectList) (k : String) : Option String :=
  ((dictGet r.obj k).map Entry.dag).getD none

/-- A source list whose insertion order (b before a) differs from the
sorted key order, with one disabled entry. -/
def regRR : sp3dObjectList :=
  ⟨[("b", ⟨some "dagB", true, 1, "Up"⟩), ("a", ⟨some "dagA", false, 1, "Up"⟩)], 0, ["mesh"]⟩

/-! ## Concrete scenes for the addObj witnesses -/

/-- A scene with a transform mT whose unique child shape m is a mesh. -/
def sceneOneMesh : Scene where
  nodeType n := if n = "mT" then "transform" else if n = "m" then "mesh" else "unknown"
  childShapes n := if n = "mT" then ["m"] else []
  parentOf n := if n = "m" then ["mT"] else []
  fullShapePaths n := if n = "mT" then ["|mT|m"] else []
  shapePaths n := if n = "mT" then ["m"] else []

/-- A scene with a transform g2 whose two child shapes are both
meshes. -/
def sceneTwoMeshes : Scene where
  nodeType n := if n = "g2" then "transform" else "mesh"
  childShapes n := if n = "g2" then ["m1", "m2"] else []
  parentOf n := if n = "m1" then ["g2"] else if n = "m2" then ["g2"] else []
  fullShapePaths n := if n = "g2" then ["|g2|m1", "|g2|m2"] else []
  shapePaths n := if n = "g2" then ["m1", "m2"] else []

/-- A target list already holding the key m, with a nonzero round-robin
index. -/
def regWithM : sp3dObjectList :=
  ⟨[("m", ⟨some "|mT|m", true, 1/2, "Up"⟩)], 3, ["mesh"]⟩

/-- The value loadVars assigns to the attribute of a row. -/
def loadVal (st : Store) (e : OptVar) : PyVal :=
  match e.ty with
  | .iv => .pbool (optQ st e.name).truthy
  | .fv => (optQ st e.name).round2

/-- The value commitVars stores for a row. -/
def commitVal (d : Dict) (e : OptVar) : PyVal :=
  match e.ty with
  | .iv => .pnum ((d e.varname).toInt : ℚ)
  | .fv => .pnum (d e.varname).toNum

/-- The attribute value produced by a load right after a reset: iv rows
load the default as a bool, fv rows load the default itself (all fv
defaults of the table survive round(_, 2) unchanged). -/
def defaultLoaded (e : OptVar) : PyVal :=
  match e.ty with
  | .iv => .pbool (decide (e.default ≠ 0))
  | .fv => .pnum e.default

/-- The empty optionVar store (first run: nothing persisted). -/
def emptyStore : Store := fun _ => none

/-- A fully populated store whose persisted version is 2021 while the
running version is 2022. -/
def store2021 : Store := setStore (resetStore emptyStore) "sp3dVersion" (.pnum 2021)

/-- The fixed projection performed by commitVars followed by loadVars
on a table attribute: bool(int(v)) for iv rows, round(float(v), 2) for
fv rows. -/
def roundTripVal (d : Dict) (e : OptVar) : PyVal :=
  match e.ty with
  | .iv => .pbool (decide ((d e.varname).toInt ≠ 0))
  | .fv => .pnum (round2 (d e.varname).toNum)

/-! ## Helper lemmas -/

theorem validateList_eq_all (ex : Option String → Bool) (l : List (String × Entry)) :
    validateList ex l = l.all fun p => ex p.2.dag := by
  induction l with
  | nil => rfl
  | cons p rest ih =>
    simp only [validateList, List.all_cons]
    by_cases h : ex p.2.dag <;> simp [h, ih]

theorem validateList_short_circuit (ex : Option String → Bool) (pre : List (String × Entry))
    (p : String × Entry) (post : List (String × Entry)) (h : ex p.2.dag = false) :
    validateList ex (pre ++ p :: post) = false := by
  induction pre with
  | nil => simp [validateList, h]
  | cons q pre ih =>
    simp only [List.cons_append, validateList]
    by_cases hq : ex q.2.dag <;> simp [hq, ih]

theorem dictKeys_setActivation (r : sp3dObjectList) (k : String) (b : Bool) :
    dictKeys (setActivation r k b).obj = dictKeys r.obj := by
  simp only [setActivation, dictKeys, List.map_map]
  apply List.map_congr_left
  intro p _
  by_cases h : p.1 = k <;> simp [h]

theorem dictGet_setActivation_dag (l : List (String × Entry)) (k : String) (b : Bool)
    (k2 : String) :
    (dictGet (List.map (fun p => if p.1 == k then (p.1, { p.2 with activation := b }) else p) l)
        k2).map Entry.dag
      = (dictGet l k2).map Entry.dag := by
  induction l with
  | nil => rfl
  | cons p rest ih =>
    simp only [List.map_cons]
    by_cases hk : (p.1 == k) = true
    · rw [if_pos hk]
      by_cases hk2 : (p.1 == k2) = true
      · simp [dictGet, hk2]
      · simpa [dictGet, hk2] using ih
    · rw [if_neg hk]
      by_cases hk2 : (p.1 == k2) = true
      · simp [dictGet, hk2]
      · simpa [dictGet, hk2] using ih

/-! ## Claim C9: uniform scale sampling -/

/-- Claim C9: getRandomScale with uniform=true always returns three
equal components (one draw replicated), and with uniform=false, when
the three per-axis ranges are the same zero-width interval, the three
independent draws also give three equal components. -/
theorem getRandomScale_uniform_equal :
    (∀ (tr : sp3dTransform) (t1 t2 t3 : ℚ),
      ∃ v, getRandomScale tr true t1 t2 t3 = (v, v, v)) ∧
    (∀ (a : ℚ) (rot : (ℚ × ℚ) × (ℚ × ℚ) × (ℚ × ℚ)) (uj vj : ℚ × ℚ) (t1 t2 t3 : ℚ),
      getRandomScale ⟨rot, ((a, a), (a, a), (a, a)), uj, vj⟩ false t1 t2 t3
        = (round3 a, round3 a, round3 a)) := by
  constructor
  · intro tr t1 t2 t3
    exact ⟨round3 (randUniform tr.scale.1.1 tr.scale.1.2 t1), rfl⟩
  · intro a rot uj vj t1 t2 t3
    simp [getRandomScale, randUniform]

/-! ## Claim C7: hasDuplicate symmetry -/

theorem hasDuplicate_eq_true (A B : sp3dObjectList) :
    hasDuplicate A B = true ↔ ∃ k, k ∈ dictKeys A.obj ∧ k ∈ dictKeys B.obj := by
  simp only [hasDuplicate, alreadyExists, List.any_eq_true]
  constructor
  · rintro ⟨k, hkB, hkA⟩
    exact ⟨k, List.elem_iff.mp hkA, hkB⟩
  · rintro ⟨k, hkA, hkB⟩
    exact ⟨k, hkB, List.elem_iff.mpr hkA⟩

/-- Claim C7: hasDuplicate is symmetric, and it is true exactly when
some key of one list is also a key of the other. -/
theorem hasDuplicate_symm :
    (∀ A B : sp3dObjectList, hasDuplicate A B = hasDuplicate B A) ∧
    (∀ A B : sp3dObjectList,
      hasDuplicate A B = true ↔ ∃ k, k ∈ dictKeys A.obj ∧ k ∈ dictKeys B.obj) := by
  refine ⟨fun A B => ?_, hasDuplicate_eq_true⟩
  rw [Bool.eq_iff_iff, hasDuplicate_eq_true, hasDuplicate_eq_true]
  constructor
  · rintro ⟨k, h1, h2⟩
    exact ⟨k, h2, h1⟩
  · rintro ⟨k, h1, h2⟩
    exact ⟨k, h2, h1⟩

/-! ## Claim C8: validateObjects -/

/-- Claim C8: validateObjects is false on an empty list; on a
non-empty list it is true exactly when every stored reference resolves
live; and it short-circuits: as soon as one entry is dead the result is
false and does not depend on the entries after it. -/
theorem validateObjects_spec :
    (∀ (ex : Option String → Bool) (i : ℕ) (auth : List String),
      validateObjects ex ⟨[], i, auth⟩ = false) ∧
    (∀ (ex : Option String → Bool) (r : sp3dObjectList), r.obj ≠ [] →
      (validateObjects ex r = true ↔ ∀ p ∈ r.obj, ex p.2.dag = true)) ∧
    (∀ (ex : Option String → Bool) (i : ℕ) (auth : List String)
      (pre : List (String × Entry)) (p : String × Entry) (post post2 : List (String × Entry)),
      ex p.2.dag = false →
        validateObjects ex ⟨pre ++ p :: post, i, auth⟩ = false ∧
        validateObjects ex ⟨pre ++ p :: post, i, auth⟩
          = validateObjects ex ⟨pre ++ p :: post2, i, auth⟩) := by
  refine ⟨fun ex i auth => rfl, fun ex r h => ?_, fun ex i auth pre p post post2 h => ?_⟩
  · have hlen : r.obj.length ≠ 0 := by
      simpa [List.length_eq_zero] using h
    simp [validateObjects, hlen, validateList_eq_all, List.all_eq_true]
  · have h1 : validateObjects ex ⟨pre ++ p :: post, i, auth⟩ = false := by
      have hlen : (pre ++ p :: post).length ≠ 0 := by simp
      simp [validateObjects, hlen, validateList_short_circuit ex pre p post h]
    have h2 : validateObjects ex ⟨pre ++ p :: post2, i, auth⟩ = false := by
      have hlen : (pre ++ p :: post2).length ≠ 0 := by simp
      simp [validateObjects, hlen, validateList_short_circuit ex pre p post2 h]
    exact ⟨h1, h1.trans h2.symm⟩

/-- Witness for C8 at concrete inputs: a singleton list with a live
reference validates, and a dead second entry forces false whatever
comes after it. -/
theorem validateObjects_spec_witness :
    (validateObjects (fun o => o == some "live") ⟨[("a", ⟨some "live", true, 1/2, "Up"⟩)], 0, ["mesh"]⟩
      = true) ∧
    validateObjects (fun o => o == some "live")
      ⟨[("a", ⟨some "live", true, 1/2, "Up"⟩)] ++ ("b", ⟨some "dead", true, 1/2, "Up"⟩) :: [], 0, ["mesh"]⟩
      = false := by
  constructor
  · exact (validateObjects_spec.2.1 (fun o => o == some "live")
      ⟨[("a", ⟨some "live", true, 1/2, "Up"⟩)], 0, ["mesh"]⟩ (by decide)).mpr (by decide)
  · exact (validateObjects_spec.2.2 (fun o => o == some "live") 0 ["mesh"]
      [("a", ⟨some "live", true, 1/2, "Up"⟩)] ("b", ⟨some "dead", true, 1/2, "Up"⟩) [] []
      (by decide)).1

/-! ## Claim C1: getRandom ignores the weighted flag (code bug) -/

/-- Claim C1 (bug exhibit): getRandom returns the same value whatever
the weighted flag, its result ignores the activation flags, and on the
registry with probability weights 0.1 and 0.9 each of the two entries
is selected for exactly one of the two equiprobable draws — a uniform
1/2 - 1/2 pick, not the 1/10 - 9/10 weighted pick promised by its own
docstring. -/
theorem getRandom_ignores_weighted :
    (∀ (r : sp3dObjectList) (w : Bool) (rnd : ℕ), getRandom r w rnd = getRandom r false rnd) ∧
    (∀ (r : sp3dObjectList) (k : String) (b : Bool) (w : Bool) (rnd : ℕ),
      getRandom (setActivation r k b) w rnd = getRandom r w rnd) ∧
    ((List.range 2).countP (fun rnd => getRandom regWeights true rnd == some (some "dagA")) = 1 ∧
     (List.range 2).countP (fun rnd => getRandom regWeights true rnd == some (some "dagB")) = 1) := by
  refine ⟨fun r w rnd => rfl, fun r k b w rnd => ?_, by decide, by decide⟩
  simp only [getRandom, dictKeys_setActivation]
  by_cases hlen : (dictKeys r.obj).length = 0
  · simp [hlen]
  · simp only [hlen, if_false]
    exact dictGet_setActivation_dag r.obj k b
      ((dictKeys r.obj).getD (rnd % (dictKeys r.obj).length) "")

/-! ## Helper lemmas for addObj and delObj -/

theorem alreadyExists_iff (r : sp3dObjectList) (k : String) :
    alreadyExists r k = true ↔ k ∈ dictKeys r.obj :=
  List.elem_iff

theorem alreadyExists_false_iff (r : sp3dObjectList) (k : String) :
    alreadyExists r k = false ↔ k ∉ dictKeys r.obj := by
  constructor
  · intro h hm
    rw [(alreadyExists_iff r k).mpr hm] at h
    cases h
  · intro h
    cases hb : alreadyExists r k
    · rfl
    · exact absurd ((alreadyExists_iff r k).mp hb) h

theorem contains_eq_false_iff (l : List String) (x : String) :
    l.contains x = false ↔ x ∉ l := by
  rw [← Bool.not_eq_true]
  exact not_congr List.elem_iff

theorem dictSet_fresh (l : List (String × Entry)) (k : String) (v : Entry)
    (h : k ∉ dictKeys l) : dictSet l k v = l ++ [(k, v)] := by
  have hany : l.any (fun p => p.1 == k) = false := by
    apply List.any_eq_false.mpr
    intro p hp
    have hne : p.1 ≠ k := fun he => h (he ▸ List.mem_map_of_mem Prod.fst hp)
    simp [hne]
  simp [dictSet, hany]

theorem filter_append_single (l : List (String × Entry)) (k : String) (v : Entry)
    (h : k ∉ dictKeys l) :
    (l ++ [(k, v)]).filter (fun p => !(p.1 == k)) = l := by
  rw [List.filter_append]
  have h1 : l.filter (fun p => !(p.1 == k)) = l := by
    apply List.filter_eq_self.mpr
    intro p hp
    have hne : p.1 ≠ k := fun he => h (he ▸ List.mem_map_of_mem Prod.fst hp)
    simp [hne]
  simp [h1]

/-- Any successful addObj adds a fresh key at the end of the dictionary
with the tuple (getDAGPath of the key, activation, proba, align), and
changes nothing else. -/
theorem addObj_added_cases (sc : Scene) (r : sp3dObjectList) (obj : String) (a : Bool)
    (p : ℚ) (al : String) (k : String) (r2 : sp3dObjectList)
    (h : addObj sc r obj a p al = (.added k, r2)) :
    alreadyExists r k = false ∧
    r2 = { r with obj := r.obj ++ [(k, ⟨getDAGPath sc k true, a, p, al⟩)] } := by
  by_cases h1 : alreadyExists r obj = true
  · simp [addObj, h1] at h
  · rw [Bool.not_eq_true] at h1
    by_cases h2 : r.auth.contains (sc.nodeType obj) = true
    · have h2m : sc.nodeType obj ∈ r.auth := List.elem_iff.mp h2
      simp [addObj, h1, h2m, Prod.mk.injEq, AddResult.added.injEq] at h
      obtain ⟨rfl, rfl⟩ := h
      exact ⟨h1, by rw [dictSet_fresh _ _ _ ((alreadyExists_false_iff _ _).mp h1)]⟩
    · have h2m : sc.nodeType obj ∉ r.auth := (contains_eq_false_iff _ _).mp (by
        rw [← Bool.not_eq_true]; exact h2)
      by_cases h3 : sc.nodeType obj = "transform"
      · rw [h3] at h2m
        cases hcs : sc.childShapes obj with
        | nil => simp [addObj, h1, h2m, h3, hcs] at h
        | cons c t =>
          cases t with
          | nil =>
            by_cases h4 : r.auth.contains (sc.nodeType c) = true
            · have h4m : sc.nodeType c ∈ r.auth := List.elem_iff.mp h4
              by_cases h5 : alreadyExists r c = true
              · simp [addObj, h1, h2m, h3, hcs, h4m, h5] at h
              · rw [Bool.not_eq_true] at h5
                simp [addObj, h1, h2m, h3, hcs, h5, h4m, Prod.mk.injEq,
                  AddResult.added.injEq] at h
                obtain ⟨rfl, rfl⟩ := h
                exact ⟨h5, by rw [dictSet_fresh _ _ _ ((alreadyExists_false_iff _ _).mp h5)]⟩
            · have h4m : sc.nodeType c ∉ r.auth := (contains_eq_false_iff _ _).mp (by
                rw [← Bool.not_eq_true]; exact h4)
              simp [addObj, h1, h2m, h3, hcs, h4m] at h
          | cons y t2 => simp [addObj, h1, h2m, h3, hcs] at h
      · simp [addObj, h1, h2m, h3] at h

/-! ## Claim C5: add then remove restores the list -/

/-- Claim C5: when addObj accepts a candidate under key k, deleting k
again restores the list exactly (key set, entry data and round-robin
index), and the accepted add leaves the index unchanged. -/
theorem addObj_delObj_inverse :
    ∀ (sc : Scene) (r : sp3dObjectList) (obj : String) (a : Bool) (p : ℚ) (al : String)
      (k : String) (r2 : sp3dObjectList),
      addObj sc r obj a p al = (.added k, r2) →
      delObj r2 k = r ∧ r2.i = r.i := by
  intro sc r obj a p al k r2 h
  obtain ⟨hfresh, rfl⟩ := addObj_added_cases sc r obj a p al k r2 h
  refine ⟨?_, rfl⟩
  have hk : k ∉ dictKeys r.obj := (alreadyExists_false_iff r k).mp hfresh
  obtain ⟨robj, ri, rauth⟩ := r
  simp only [delObj]
  rw [filter_append_single robj k _ hk]

/-! ## Claim C6: duplicate keys are rejected without any state change -/

/-- Claim C6: a candidate whose key is already in the list — the
candidate itself, or the resolved single shape child of a candidate
transform — is rejected with the already-exists reason, and the list
(entries and round-robin index) is returned unchanged. -/
theorem addObj_duplicate_rejected :
    ∀ (sc : Scene) (r : sp3dObjectList) (obj : String) (a : Bool) (p : ℚ) (al : String),
      (alreadyExists r obj = true →
        addObj sc r obj a p al = (.rejected .alreadyInList, r)) ∧
      (∀ c, alreadyExists r obj = false →
        r.auth.contains (sc.nodeType obj) = false →
        sc.nodeType obj = "transform" →
        sc.childShapes obj = [c] →
        r.auth.contains (sc.nodeType c) = true →
        alreadyExists r c = true →
        addObj sc r obj a p al = (.rejected .alreadyInList, r)) := by
  intro sc r obj a p al
  constructor
  · intro h
    simp [addObj, h]
  · intro c h1 h2 h3 h4 h5 h6
    rw [h3] at h2
    have h2m : "transform" ∉ r.auth := (contains_eq_false_iff _ _).mp h2
    have h5m : sc.nodeType c ∈ r.auth := List.elem_iff.mp h5
    simp [addObj, h1, h2m, h3, h4, h5m, h6]

/-! ## Claim C4: ambiguous hierarchies are refused -/

/-- Counterexample to claim C4 as stated: a transform (grp of
sceneTwoShapes) with exactly one child shape of the authorized type
mesh — its other child shape is a camera — is NOT accepted with that
child as the key: addObj rejects it as hierarchy-too-complex, because
the code only counts child shapes, not qualifying child shapes. -/
theorem addObj_one_qualifying_child_rejected :
    ((sceneTwoShapes.childShapes "grp").filter
        (fun c => regTarget.auth.contains (sceneTwoShapes.nodeType c))).length = 1 ∧
    sceneTwoShapes.nodeType "grp" = "transform" ∧
    alreadyExists regTarget "grp" = false ∧
    addObj sceneTwoShapes regTarget "grp" true (1/2) "Up"
      = (.rejected .hierarchyTooComplex, regTarget) := by
  refine ⟨by decide, by decide, by decide, by decide⟩

/-- Claim C4 (amended): for a fresh candidate transform, more than one
child shape of an authorized type leads to the hierarchy-too-complex
rejection with nothing added; a transform whose unique immediate child
shape is of an authorized type (and fresh) is accepted with that child
as the key. -/
theorem addObj_hierarchy_spec :
    ∀ (sc : Scene) (r : sp3dObjectList) (obj : String) (a : Bool) (p : ℚ) (al : String),
      alreadyExists r obj = false →
      r.auth.contains (sc.nodeType obj) = false →
      sc.nodeType obj = "transform" →
      (2 ≤ ((sc.childShapes obj).filter fun c => r.auth.contains (sc.nodeType c)).length →
        addObj sc r obj a p al = (.rejected .hierarchyTooComplex, r)) ∧
      (∀ c, sc.childShapes obj = [c] → r.auth.contains (sc.nodeType c) = true →
        alreadyExists r c = false →
        addObj sc r obj a p al =
          (.added c, { r with obj := r.obj ++ [(c, ⟨getDAGPath sc c true, a, p, al⟩)] })) := by
  intro sc r obj a p al h1 h2 h3
  rw [h3] at h2
  have h2m : "transform" ∉ r.auth := (contains_eq_false_iff _ _).mp h2
  constructor
  · intro hcount
    have hlen : 2 ≤ (sc.childShapes obj).length :=
      le_trans hcount (List.length_filter_le _ _)
    cases hcs : sc.childShapes obj with
    | nil => rw [hcs] at hlen; simp at hlen
    | cons x t =>
      cases t with
      | nil => rw [hcs] at hlen; simp at hlen
      | cons y t2 => simp [addObj, h1, h2m, h3, hcs]
  · intro c hcs h5 h6
    have h5m : sc.nodeType c ∈ r.auth := List.elem_iff.mp h5
    simp [addObj, h1, h2m, h3, hcs, h5m, h6,
      dictSet_fresh r.obj c ⟨getDAGPath sc c true, a, p, al⟩
        ((alreadyExists_false_iff r c).mp h6)]

/-- Witness for C5: adding mT (resolved to its mesh child m) to the
empty target list and deleting m again restores the empty list. -/
theorem addObj_delObj_inverse_witness :
    delObj { regTarget with
        obj := regTarget.obj ++ [("m", ⟨some "|mT|m", true, 1/2, "Up"⟩)] } "m" = regTarget ∧
    ({ regTarget with
        obj := regTarget.obj ++ [("m", ⟨some "|mT|m", true, 1/2, "Up"⟩)] } : sp3dObjectList).i
      = regTarget.i :=
  addObj_delObj_inverse sceneOneMesh regTarget "mT" true (1/2) "Up" "m"
    { regTarget with obj := regTarget.obj ++ [("m", ⟨some "|mT|m", true, 1/2, "Up"⟩)] }
    rfl

/-- Witness for C6: re-adding the shape m, or the transform mT whose
resolved child is m, to a list already holding m is rejected with the
already-exists reason and the list (index 3 included) is unchanged. -/
theorem addObj_duplicate_rejected_witness :
    addObj sceneOneMesh regWithM "m" true (1/2) "Up" = (.rejected .alreadyInList, regWithM) ∧
    addObj sceneOneMesh regWithM "mT" true (1/2) "Up" = (.rejected .alreadyInList, regWithM) :=
  ⟨(addObj_duplicate_rejected sceneOneMesh regWithM "m" true (1/2) "Up").1 (by decide),
   (addObj_duplicate_rejected sceneOneMesh regWithM "mT" true (1/2) "Up").2 "m"
     (by decide) (by decide) (by decide) (by decide) (by decide) (by decide)⟩

/-- Witness for the amended C4: two mesh children are refused as
hierarchy-too-complex; a unique mesh child is accepted as the key. -/
theorem addObj_hierarchy_spec_witness :
    addObj sceneTwoMeshes regTarget "g2" true (1/2) "Up"
      = (.rejected .hierarchyTooComplex, regTarget) ∧
    addObj sceneOneMesh regTarget "mT" true (1/2) "Up"
      = (.added "m", { regTarget with
          obj := regTarget.obj ++ [("m", ⟨getDAGPath sceneOneMesh "m" true, true, 1/2, "Up"⟩)] }) :=
  ⟨(addObj_hierarchy_spec sceneTwoMeshes regTarget "g2" true (1/2) "Up"
      (by decide) (by decide) (by decide)).1 (by decide),
   (addObj_hierarchy_spec sceneOneMesh regTarget "mT" true (1/2) "Up"
      (by decide) (by decide) (by decide)).2 "m" (by decide) (by decide) (by decide)⟩

/-! ## Claim C2: getNext round robin -/

theorem dictGet_isSome_of_mem (l : List (String × Entry)) (k : String)
    (h : k ∈ dictKeys l) : ∃ e, dictGet l k = some e := by
  induction l with
  | nil => simp [dictKeys] at h
  | cons p rest ih =>
    by_cases hp : (p.1 == k) = true
    · exact ⟨p.2, by simp [dictGet, hp]⟩
    · have hk : k ∈ dictKeys rest := by
        simp only [dictKeys, List.map_cons, List.mem_cons] at h
        rcases h with h | h
        · exact absurd (beq_iff_eq.mpr h.symm) hp
        · exact h
      obtain ⟨e, he⟩ := ih hk
      exact ⟨e, by simp [dictGet, hp, he]⟩

theorem getNext_closed (r : sp3dObjectList) (h : r.obj ≠ []) :
    getNext r
      = some (dagOf r ((sortedKeys r).getD (r.i % (sortedKeys r).length) ""),
              { r with i := r.i + 1 }) := by
  have hperm : (sortedKeys r).Perm (dictKeys r.obj) :=
    List.perm_insertionSort (· ≤ ·) (dictKeys r.obj)
  have hN : (sortedKeys r).length ≠ 0 := by
    rw [hperm.length_eq]
    simpa [dictKeys, List.length_eq_zero] using h
  have hmod : r.i % (sortedKeys r).length < (sortedKeys r).length :=
    Nat.mod_lt _ (Nat.pos_of_ne_zero hN)
  have hmem : (sortedKeys r).getD (r.i % (sortedKeys r).length) "" ∈ sortedKeys r := by
    rw [List.getD_eq_getElem _ _ hmod]
    exact List.getElem_mem _
  have hkey : (sortedKeys r).getD (r.i % (sortedKeys r).length) "" ∈ dictKeys r.obj :=
    hperm.mem_iff.mp hmem
  obtain ⟨e, he⟩ := dictGet_isSome_of_mem r.obj _ hkey
  have hdag : dagOf r ((sortedKeys r).getD (r.i % (sortedKeys r).length) "") = e.dag := by
    unfold dagOf
    rw [he]
    rfl
  simp only [getNext]
  rw [if_neg hN, he, hdag]
  rfl

theorem runNext_closed (r : sp3dObjectList) (h : r.obj ≠ []) (n : ℕ) :
    runNext r n
      = ((List.range n).map
          (fun t => dagOf r ((sortedKeys r).getD ((r.i + t) % (sortedKeys r).length) "")),
         { r with i := r.i + n }) := by
  induction n with
  | zero => simp [runNext]
  | succ n ih =>
    simp only [runNext, ih]
    rw [getNext_closed { r with i := r.i + n } h]
    simp [List.range_succ, Nat.add_assoc, sortedKeys, dagOf, dictKeys]

theorem range_map_getD {α β : Type} (l : List α) (d : α) (f : α → β) :
    (List.range l.length).map (fun t => f (l.getD t d)) = l.map f := by
  induction l with
  | nil => rfl
  | cons a t ih =>
    rw [List.length_cons, List.range_succ_eq_map, List.map_cons, List.map_map, List.map_cons,
      List.getD_cons_zero]
    have hc : List.map ((fun j => f ((a :: t).getD j d)) ∘ Nat.succ) (List.range t.length)
        = List.map (fun j => f (t.getD j d)) (List.range t.length) :=
      List.map_congr_left fun x _ => rfl
    rw [hc, ih]

theorem option_map_fst_dag (s : sp3dObjectList) (o : Option Entry) :
    (o.map fun e => (e.dag, s)).map (fun p : Option String × sp3dObjectList => p.1)
      = o.map Entry.dag := by
  cases o <;> rfl

/-- Claim C2: with the round-robin index at its initial value 0, the
sorted key list is a sorted duplicate-free rearrangement of the keys, N
consecutive getNext calls return the stored reference of every key
exactly once in ascending key order, the call after that wraps back to
the first sorted key, and the returned reference never depends on the
activation flags. -/
theorem getNext_round_robin :
    ∀ r : sp3dObjectList, r.i = 0 → r.obj ≠ [] → (dictKeys r.obj).Nodup →
      ((sortedKeys r).Perm (dictKeys r.obj) ∧
        List.Sorted (· ≤ ·) (sortedKeys r) ∧ (sortedKeys r).Nodup) ∧
      (runNext r (dictKeys r.obj).length).1 = (sortedKeys r).map (dagOf r) ∧
      (runNext r ((dictKeys r.obj).length + 1)).1
        = (sortedKeys r).map (dagOf r) ++ [dagOf r ((sortedKeys r).getD 0 "")] ∧
      (∀ k b, (getNext (setActivation r k b)).map (fun p => p.1)
        = (getNext r).map (fun p => p.1)) := by
  intro r hi h hnd
  have hperm : (sortedKeys r).Perm (dictKeys r.obj) :=
    List.perm_insertionSort (· ≤ ·) (dictKeys r.obj)
  have hN : (sortedKeys r).length = (dictKeys r.obj).length := hperm.length_eq
  have hN0 : (sortedKeys r).length ≠ 0 := by
    rw [hN]
    simpa [dictKeys, List.length_eq_zero] using h
  refine ⟨⟨hperm, List.sorted_insertionSort _ _, hperm.nodup_iff.mpr hnd⟩, ?_, ?_, ?_⟩
  · rw [runNext_closed r h, hi]
    have hcong : (List.range (dictKeys r.obj).length).map
          (fun t => dagOf r ((sortedKeys r).getD ((0 + t) % (sortedKeys r).length) ""))
        = (List.range (dictKeys r.obj).length).map
          (fun t => dagOf r ((sortedKeys r).getD t "")) := by
      apply List.map_congr_left
      intro t ht
      rw [List.mem_range] at ht
      rw [Nat.zero_add, Nat.mod_eq_of_lt (hN ▸ ht)]
    rw [hcong, ← hN, range_map_getD]
  · rw [runNext_closed r h, hi]
    show (List.range ((dictKeys r.obj).length + 1)).map
        (fun t => dagOf r ((sortedKeys r).getD ((0 + t) % (sortedKeys r).length) ""))
      = (sortedKeys r).map (dagOf r) ++ [dagOf r ((sortedKeys r).getD 0 "")]
    rw [List.range_succ, List.map_append]
    congr 1
    · have hcong : (List.range (dictKeys r.obj).length).map
            (fun t => dagOf r ((sortedKeys r).getD ((0 + t) % (sortedKeys r).length) ""))
          = (List.range (dictKeys r.obj).length).map
            (fun t => dagOf r ((sortedKeys r).getD t "")) := by
        apply List.map_congr_left
        intro t ht
        rw [List.mem_range] at ht
        rw [Nat.zero_add, Nat.mod_eq_of_lt (hN ▸ ht)]
      rw [hcong, ← hN, range_map_getD]
    · rw [List.map_cons, List.map_nil, Nat.zero_add, ← hN, Nat.mod_self]
  · intro k b
    have hsk : sortedKeys (setActivation r k b) = sortedKeys r := by
      simp only [sortedKeys, dictKeys_setActivation]
    simp only [getNext, hsk]
    by_cases hlen : (sortedKeys r).length = 0
    · simp [hlen]
    · simp only [hlen, if_false]
      rw [option_map_fst_dag, option_map_fst_dag]
      have hio : (setActivation r k b).i = r.i := rfl
      rw [hio]
      simp only [setActivation]
      exact dictGet_setActivation_dag r.obj k b
        ((sortedKeys r).getD (r.i % (sortedKeys r).length) "")

/-- Witness for C2 on a two-entry list inserted out of order with one
disabled entry: two calls visit dagA then dagB, the third wraps to
dagA, and toggling an activation flag does not change the next pick. -/
theorem getNext_round_robin_witness :
    (runNext regRR 2).1 = [some "dagA", some "dagB"] ∧
    (runNext regRR 3).1 = [some "dagA", some "dagB", some "dagA"] ∧
    (getNext (setActivation regRR "a" true)).map (fun p => p.1)
      = (getNext regRR).map (fun p => p.1) := by
  have hba : ¬ (("b" : String) ≤ "a") := by
    rw [String.le_iff_toList_le]
    decide
  have hsort : sortedKeys regRR = ["a", "b"] := by
    simp [sortedKeys, dictKeys, regRR, List.insertionSort, List.orderedInsert, hba]
  have hmap : (sortedKeys regRR).map (dagOf regRR) = [some "dagA", some "dagB"] := by
    rw [hsort]
    simp [dagOf, dictGet, regRR]
  have h := getNext_round_robin regRR rfl (by decide) (by decide)
  refine ⟨h.2.1.trans hmap, h.2.2.1.trans ?_, h.2.2.2 "a" true⟩
  rw [hmap, hsort]
  simp [dagOf, dictGet, regRR]

/-! ## Helper lemmas for the option table folds (claims C3 and C10) -/

theorem loadStep_ne (st : Store) (d : Dict) (e : OptVar) (n : String)
    (h : n ≠ e.varname) : loadStep st d e n = d n := by
  cases hty : e.ty <;> simp [loadStep, hty, setDict, h]

theorem loadStep_self (st : Store) (d : Dict) (e : OptVar) :
    loadStep st d e e.varname = loadVal st e := by
  cases hty : e.ty <;> simp [loadStep, loadVal, hty, setDict]

theorem loadFold_notin (st : Store) :
    ∀ (l : List OptVar) (d : Dict) (n : String), n ∉ l.map OptVar.varname →
      l.foldl (loadStep st) d n = d n := by
  intro l
  induction l with
  | nil => intro d n _; rfl
  | cons e t ih =>
    intro d n hn
    simp only [List.map_cons, List.mem_cons, not_or] at hn
    rw [List.foldl_cons, ih _ _ hn.2, loadStep_ne st d e n hn.1]

theorem loadFold_mem (st : Store) :
    ∀ (l : List OptVar) (d : Dict) (e : OptVar), (l.map OptVar.varname).Nodup → e ∈ l →
      l.foldl (loadStep st) d e.varname = loadVal st e := by
  intro l
  induction l with
  | nil => intro d e _ he; cases he
  | cons a t ih =>
    intro d e hnd he
    simp only [List.map_cons, List.nodup_cons] at hnd
    rw [List.foldl_cons]
    rcases List.mem_cons.mp he with rfl | he2
    · rw [loadFold_notin st t _ _ hnd.1, loadStep_self]
    · exact ih _ _ hnd.2 he2

theorem commitStep_ne (d : Dict) (st : Store) (e : OptVar) (n : String)
    (h : n ≠ e.name) : commitStep d st e n = st n := by
  cases hty : e.ty <;> simp [commitStep, hty, setStore, h]

theorem commitStep_self (d : Dict) (st : Store) (e : OptVar) :
    commitStep d st e e.name = some (commitVal d e) := by
  cases hty : e.ty <;> simp [commitStep, commitVal, hty, setStore]

theorem commitFold_notin (d : Dict) :
    ∀ (l : List OptVar) (st : Store) (n : String), n ∉ l.map OptVar.name →
      l.foldl (commitStep d) st n = st n := by
  intro l
  induction l with
  | nil => intro st n _; rfl
  | cons e t ih =>
    intro st n hn
    simp only [List.map_cons, List.mem_cons, not_or] at hn
    rw [List.foldl_cons, ih _ _ hn.2, commitStep_ne d st e n hn.1]

theorem commitFold_mem (d : Dict) :
    ∀ (l : List OptVar) (st : Store) (e : OptVar), (l.map OptVar.name).Nodup → e ∈ l →
      l.foldl (commitStep d) st e.name = some (commitVal d e) := by
  intro l
  induction l with
  | nil => intro st e _ he; cases he
  | cons a t ih =>
    intro st e hnd he
    simp only [List.map_cons, List.nodup_cons] at hnd
    rw [List.foldl_cons]
    rcases List.mem_cons.mp he with rfl | he2
    · rw [commitFold_notin d t _ _ hnd.1, commitStep_self]
    · exact ih _ _ hnd.2 he2

theorem resetStep_ne (st : Store) (e : OptVar) (n : String) (h : n ≠ e.name) :
    resetStep st e n = st n := by
  simp [resetStep, setStore, h]

theorem resetFold_notin :
    ∀ (l : List OptVar) (st : Store) (n : String), n ∉ l.map OptVar.name →
      l.foldl resetStep st n = st n := by
  intro l
  induction l with
  | nil => intro st n _; rfl
  | cons e t ih =>
    intro st n hn
    simp only [List.map_cons, List.mem_cons, not_or] at hn
    rw [List.foldl_cons, ih _ _ hn.2, resetStep_ne st e n hn.1]

theorem resetFold_mem :
    ∀ (l : List OptVar) (st : Store) (e : OptVar), (l.map OptVar.name).Nodup → e ∈ l →
      l.foldl resetStep st e.name = some (.pnum e.default) := by
  intro l
  induction l with
  | nil => intro st e _ he; cases he
  | cons a t ih =>
    intro st e hnd he
    simp only [List.map_cons, List.nodup_cons] at hnd
    rw [List.foldl_cons]
    rcases List.mem_cons.mp he with rfl | he2
    · rw [resetFold_notin t _ _ hnd.1]
      simp [resetStep, setStore]
    · exact ih _ _ hnd.2 he2

theorem optNames_nodup : (sp3dOptionVars.map OptVar.name).Nodup := by decide

theorem varNames_nodup : (sp3dOptionVars.map OptVar.varname).Nodup := by decide

theorem rndHalfEven_intCast (n : ℤ) : rndHalfEven ((n : ℤ) : ℚ) = n := by
  unfold rndHalfEven
  rw [Int.floor_intCast, sub_self]
  norm_num

theorem round2_idem (q : ℚ) : round2 (round2 q) = round2 q := by
  unfold round2 pyRound
  rw [div_mul_cancel₀ _ (by norm_num : ((10 : ℚ) ^ 2) ≠ 0), rndHalfEven_intCast]

theorem round2_table_defaults :
    ∀ e ∈ sp3dOptionVars, e.ty = VarType.fv → round2 e.default = e.default := by
  intro e he hty
  fin_cases he <;>
    first
      | exact absurd hty (by decide)
      | norm_num [round2, pyRound, rndHalfEven, spPaint3dVersion]

/-! ## Claim C3: checkVars validity and resetVars defaults -/

/-- Claim C3: checkVars is true exactly when every optionVar of the
table exists and the stored sp3dVersion equals the running version (its
table default); after the resetVars store writes, a load yields the
default of every row of the table; and concretely a stored version 2021
against the running 2022 is invalid while a reset store is valid. -/
theorem checkVars_resetVars_spec :
    (∀ st : Store, checkVars st = true ↔
      ∀ e ∈ sp3dOptionVars,
        ∃ v, st e.name = some v ∧ (e.name = "sp3dVersion" → v.toNum = e.default)) ∧
    (∀ (st : Store) (d : Dict), ∀ e ∈ sp3dOptionVars,
      loadVars (resetStore st) d e.varname = defaultLoaded e) ∧
    (checkVars store2021 = false ∧ checkVars (resetStore store2021) = true) := by
  refine ⟨fun st => ?_, fun st d e he => ?_, by decide, by decide⟩
  · rw [checkVars, List.all_eq_true]
    constructor
    · intro h e he
      have hthis := h e he
      cases hv : st e.name with
      | none => rw [hv] at hthis; cases hthis
      | some v =>
        rw [hv] at hthis
        have hif : (if e.name = "sp3dVersion" then decide (v.toNum = e.default) else true)
            = true := hthis
        refine ⟨v, rfl, fun hname => ?_⟩
        rw [if_pos hname] at hif
        exact of_decide_eq_true hif
    · intro h e he
      obtain ⟨v, hv, himp⟩ := h e he
      simp only [hv]
      show (if e.name = "sp3dVersion" then decide (v.toNum = e.default) else true) = true
      by_cases hn : e.name = "sp3dVersion"
      · rw [if_pos hn]
        exact decide_eq_true (himp hn)
      · rw [if_neg hn]
  · have hfold := loadFold_mem (resetStore st) sp3dOptionVars d e varNames_nodup he
    have hst : resetStore st e.name = some (.pnum e.default) :=
      resetFold_mem sp3dOptionVars st e optNames_nodup he
    refine hfold.trans ?_
    cases hty : e.ty
    · simp [loadVal, defaultLoaded, hty, optQ, hst, PyVal.truthy]
    · simp [loadVal, defaultLoaded, hty, optQ, hst, PyVal.round2,
        round2_table_defaults e he hty]

/-- Witness for C3 on the version row with an empty initial store: a
reset store loads the running version back as the version attribute. -/
theorem checkVars_resetVars_spec_witness :
    loadVars (resetStore emptyStore) (fun _ => .pnum 0) "version"
      = defaultLoaded ⟨"sp3dVersion", .fv, spPaint3dVersion, "version"⟩ :=
  checkVars_resetVars_spec.2.1 emptyStore (fun _ => .pnum 0)
    ⟨"sp3dVersion", .fv, spPaint3dVersion, "version"⟩ (by decide)

/-! ## Claim C10: the commit-then-load round trip -/

/-- Claim C10: commitVars then loadVars maps every iv attribute v of
the table to bool(int(v)), every fv attribute v to round(v, 2), leaves
every attribute outside the table (such as groupID) untouched, and is
idempotent (a second round trip, over any store, changes nothing). -/
theorem commitLoad_spec :
    (∀ (st : Store) (d : Dict), ∀ e ∈ sp3dOptionVars,
      commitLoad st d e.varname = roundTripVal d e) ∧
    (∀ (st : Store) (d : Dict) (n : String), n ∉ sp3dOptionVars.map OptVar.varname →
      commitLoad st d n = d n) ∧
    (∀ (st st2 : Store) (d : Dict), commitLoad st2 (commitLoad st d) = commitLoad st d) := by
  have hmem : ∀ (st : Store) (d : Dict), ∀ e ∈ sp3dOptionVars,
      commitLoad st d e.varname = roundTripVal d e := by
    intro st d e he
    have hfold := loadFold_mem (commitVars d st) sp3dOptionVars d e varNames_nodup he
    have hst : commitVars d st e.name = some (commitVal d e) :=
      commitFold_mem d sp3dOptionVars st e optNames_nodup he
    refine hfold.trans ?_
    cases hty : e.ty
    · simp only [loadVal, roundTripVal, commitVal, hty, optQ, hst, Option.getD_some,
        PyVal.truthy]
      congr 1
      rw [decide_eq_decide]
      exact Int.cast_ne_zero
    · simp [loadVal, roundTripVal, commitVal, hty, optQ, hst, PyVal.round2]
  have hnotin : ∀ (st : Store) (d : Dict) (n : String),
      n ∉ sp3dOptionVars.map OptVar.varname → commitLoad st d n = d n :=
    fun st d n hn => loadFold_notin (commitVars d st) sp3dOptionVars d n hn
  refine ⟨hmem, hnotin, fun st st2 d => funext fun n => ?_⟩
  by_cases hn : n ∈ sp3dOptionVars.map OptVar.varname
  · obtain ⟨e, he, hvn⟩ := List.mem_map.mp hn
    subst hvn
    rw [hmem st2 (commitLoad st d) e he, hmem st d e he]
    have hD := hmem st d e he
    cases hty : e.ty
    · simp only [roundTripVal, hty] at hD ⊢
      rw [hD]
      cases hb : decide ((d e.varname).toInt ≠ 0) <;> simp [hb, PyVal.toInt]
    · simp only [roundTripVal, hty] at hD ⊢
      rw [hD]
      simp [PyVal.toNum, round2_idem]
  · rw [hnotin st2 _ n hn, hnotin st d n hn]

/-- Witness for C10: with every attribute holding the number 0, the
round trip leaves groupID untouched and loads transformRotate as
bool(int(0)). -/
theorem commitLoad_spec_witness :
    commitLoad emptyStore (fun _ => .pnum 0) "groupID" = .pnum 0 ∧
    commitLoad emptyStore (fun _ => .pnum 0) "transformRotate"
      = roundTripVal (fun _ => .pnum 0) ⟨"sp3dTransformRotate", .iv, 1, "transformRotate"⟩ :=
  ⟨commitLoad_spec.2.1 emptyStore (fun _ => .pnum 0) "groupID" (by decide),
   commitLoad_spec.1 emptyStore (fun _ => .pnum 0)
     ⟨"sp3dTransformRotate", .iv, 1, "transformRotate"⟩ (by decide)⟩

end SpPaint3d
